import Mathlib

set_option maxRecDepth 4000

/-!
Verification development for the `iamcompact_nomenclature` package.

The Python sources are shallowly embedded: Python strings become `List Char`
(`PyStr`), Python dicts become association lists looked up with `alookup`,
Python exceptions become `Except PyErr`, and numeric dataframe values become
exact rationals.  The functions `get_aggregate_var` and `get_component_vars`
embed `var_utils.py`; `check_var_aggregates`, `check_var_aggregates_manual`
and `check_region_aggregates` embed `aggregation.py`.  Calls into the
external `nomenclature`/`pyam` libraries (the actual numeric check routines)
are passed in as explicit parameters, since those libraries are collaborators
of this package, not part of it.
-/

/-- Python strings are modelled as lists of characters. -/
abbrev PyStr := List Char

/-- The hierarchical variable-name separator (the source default `sep = '|'`).
All call sites in the repository use the default. -/
def sep : Char := '|'

/-- Embedding of Python `s.startswith(pre)`: character-by-character prefix
test, as in `var_utils.get_component_vars`. -/
def pyStartsWith : PyStr → PyStr → Bool
  | _, [] => true
  | [], _ :: _ => false
  | c :: cs, p :: ps => c = p && pyStartsWith cs ps

/-- Embedding of Python `s.split(sep)` for the one-character separator:
splits at every occurrence and keeps empty segments, so the result is
never empty. -/
def splitSep : PyStr → List PyStr
  | [] => [[]]
  | c :: rest =>
    if c = sep then [] :: splitSep rest
    else
      match splitSep rest with
      | s :: ss => (c :: s) :: ss
      | [] => [[c]]

/-- Embedding of Python `sep.join(segments)` for the one-character
separator. -/
def joinSep : List PyStr → PyStr
  | [] => []
  | [s] => s
  | s :: rest => s ++ sep :: joinSep rest

/-- Embedding of Python `joiner.join(parts)` for an arbitrary joiner string
(used for the `", ".join(...)` in the error message of
`check_var_aggregates_manual`). -/
def pyJoin (j : PyStr) : List PyStr → PyStr
  | [] => []
  | [s] => s
  | s :: rest => s ++ j ++ pyJoin j rest

/-- The loop of `var_utils.get_aggregate_var` for `check_all_levels=True`
(source lines 64-68): `for i in range(len(components)-1, 0, -1)` with
`candidate = sep.join(components[:i])`, returning the first candidate found
in the dataframe variables.  The `Nat` argument is the current loop index
`i`; the loop ends (returns `None`) when it would reach `0`. -/
def findAncestorAux (comps : List PyStr) (idfVars : List PyStr) : Nat → Option PyStr
  | 0 => none
  | j + 1 =>
    if joinSep (comps.take (j + 1)) ∈ idfVars then some (joinSep (comps.take (j + 1)))
    else findAncestorAux comps idfVars j

/-- Embedding of `var_utils.get_aggregate_var` (source lines 9-73).  The
`iamdf` parameter carries only the dataframe's variable-name list, the only
part of the `IamDataFrame` the source reads (`getattr(iamdf, variable_dimname)`);
`none` embeds the Python default `iamdf=None`. -/
def get_aggregate_var (varname : PyStr) (iamdf : Option (List PyStr))
    (check_all_levels : Bool) : Option PyStr :=
  if sep ∉ varname then none
  else
    match iamdf with
    | none => some (joinSep (splitSep varname).dropLast)
    | some idfVars =>
      if check_all_levels then
        findAncestorAux (splitSep varname) idfVars ((splitSep varname).length - 1)
      else
        if joinSep (splitSep varname).dropLast ∈ idfVars then
          some (joinSep (splitSep varname).dropLast)
        else none

/-- Embedding of `var_utils.get_component_vars` (source lines 76-130).  The
dataframe is again represented by its variable-name list; `num_sublevels` is
a Python `int | None`, so an `Option Int`. -/
def get_component_vars (varname : PyStr) (idfVars : List PyStr)
    (num_sublevels : Option Int) : List PyStr :=
  if varname ∉ idfVars then []
  else
    idfVars.filter (fun v =>
      pyStartsWith v (varname ++ [sep]) &&
        match num_sublevels with
        | none => true
        | some d => decide ((v.count sep : Int) - (varname.count sep : Int) ≤ d))

theorem pyStartsWith_iff (v p : PyStr) : pyStartsWith v p = true ↔ ∃ t, v = p ++ t := by
  induction p generalizing v with
  | nil => simp [pyStartsWith]
  | cons c cs ih =>
    cases v with
    | nil => simp [pyStartsWith]
    | cons a as =>
      simp only [pyStartsWith, Bool.and_eq_true, decide_eq_true_eq, ih, List.cons_append,
        List.cons.injEq]
      constructor
      · rintro ⟨rfl, t, rfl⟩
        exact ⟨t, rfl, rfl⟩
      · rintro ⟨t, rfl, rfl⟩
        exact ⟨rfl, t, rfl⟩

theorem splitSep_ne_nil (s : PyStr) : splitSep s ≠ [] := by
  cases s with
  | nil => simp [splitSep]
  | cons c rest =>
    unfold splitSep
    by_cases h : c = sep
    · simp [h]
    · simp only [h, if_false]
      cases hr : splitSep rest with
      | nil => simp
      | cons s0 ss => simp

theorem joinSep_cons (s : PyStr) (rest : List PyStr) (h : rest ≠ []) :
    joinSep (s :: rest) = s ++ sep :: joinSep rest := by
  cases rest with
  | nil => exact absurd rfl h
  | cons t ts => rfl

theorem joinSep_splitSep (s : PyStr) : joinSep (splitSep s) = s := by
  induction s with
  | nil => rfl
  | cons c rest ih =>
    unfold splitSep
    by_cases h : c = sep
    · simp only [h, if_true]
      rw [joinSep_cons _ _ (splitSep_ne_nil rest), ih]
      simp
    · simp only [h, if_false]
      cases hr : splitSep rest with
      | nil => exact absurd hr (splitSep_ne_nil rest)
      | cons s0 ss =>
        rw [hr] at ih
        cases ss with
        | nil =>
          simp only [joinSep] at ih ⊢
          rw [ih]
        | cons s1 ss1 =>
          simp only [joinSep] at ih ⊢
          rw [← ih]
          simp

theorem sep_not_mem_of_mem_splitSep (s : PyStr) (seg : PyStr) (h : seg ∈ splitSep s) :
    sep ∉ seg := by
  induction s generalizing seg with
  | nil =>
    simp only [splitSep, List.mem_singleton] at h
    subst h; simp
  | cons c rest ih =>
    unfold splitSep at h
    by_cases hc : c = sep
    · simp only [hc, if_true, List.mem_cons] at h
      rcases h with rfl | h
      · simp
      · exact ih seg h
    · simp only [hc, if_false] at h
      cases hr : splitSep rest with
      | nil => exact absurd hr (splitSep_ne_nil rest)
      | cons s0 ss =>
        rw [hr] at h
        simp only [List.mem_cons] at h
        rcases h with rfl | h
        · intro hmem
          simp only [List.mem_cons] at hmem
          rcases hmem with hmem | hmem
          · exact hc hmem.symm
          · exact ih s0 (by rw [hr]; exact List.mem_cons_self s0 ss) hmem
        · exact ih seg (by rw [hr]; exact List.mem_cons_of_mem s0 h)

theorem splitSep_length_ge_two (s : PyStr) (h : sep ∈ s) :
    2 ≤ (splitSep s).length := by
  induction s with
  | nil => simp at h
  | cons c rest ih =>
    unfold splitSep
    by_cases hc : c = sep
    · simp only [hc, if_true, List.length_cons]
      have := splitSep_ne_nil rest
      have : 1 ≤ (splitSep rest).length := List.length_pos.mpr this
      omega
    · have hmem : sep ∈ rest := by
        rcases List.mem_cons.mp h with rfl | hm
        · exact absurd rfl hc
        · exact hm
      simp only [hc, if_false]
      cases hr : splitSep rest with
      | nil => exact absurd hr (splitSep_ne_nil rest)
      | cons s0 ss =>
        have := ih hmem
        rw [hr] at this
        simpa using this

theorem joinSep_append_single (l : List PyStr) (x : PyStr) (h : l ≠ []) :
    joinSep (l ++ [x]) = joinSep l ++ sep :: x := by
  induction l with
  | nil => exact absurd rfl h
  | cons a as ih =>
    cases as with
    | nil => rfl
    | cons b bs =>
      have hih := ih (by simp)
      simp only [List.cons_append, List.append_eq, joinSep] at hih ⊢
      rw [hih]
      simp

/-- The list of candidate ancestor names examined by the
`check_all_levels=True` loop of `get_aggregate_var`, in the order the loop
examines them: the immediate parent first (index `j`), then each higher
ancestor, ending with the top-level segment (index `1`). -/
def ancestorCandidates (comps : List PyStr) : Nat → List PyStr
  | 0 => []
  | j + 1 => joinSep (comps.take (j + 1)) :: ancestorCandidates comps j

theorem findAncestorAux_eq_find (comps idfVars : List PyStr) (j : Nat) :
    findAncestorAux comps idfVars j =
      (ancestorCandidates comps j).find? (fun c => c ∈ idfVars) := by
  induction j with
  | zero => rfl
  | succ j ih =>
    simp only [findAncestorAux, ancestorCandidates, List.find?]
    by_cases h : joinSep (comps.take (j + 1)) ∈ idfVars
    · simp [h]
    · simp [h, ih]

theorem mem_ancestorCandidates (comps : List PyStr) (j : Nat) (c : PyStr) :
    c ∈ ancestorCandidates comps j ↔ ∃ i, 1 ≤ i ∧ i ≤ j ∧ c = joinSep (comps.take i) := by
  induction j with
  | zero =>
    simp only [ancestorCandidates, List.not_mem_nil, false_iff]
    rintro ⟨i, h1, h2, _⟩
    omega
  | succ j ih =>
    simp only [ancestorCandidates, List.mem_cons, ih]
    constructor
    · rintro (rfl | ⟨i, h1, h2, rfl⟩)
      · exact ⟨j + 1, by omega, by omega, rfl⟩
      · exact ⟨i, h1, by omega, rfl⟩
    · rintro ⟨i, h1, h2, rfl⟩
      rcases Nat.lt_or_ge i (j + 1) with hlt | hge
      · exact Or.inr ⟨i, h1, by omega, rfl⟩
      · have hi : i = j + 1 := by omega
        subst hi
        exact Or.inl rfl

/-- C7: for every variable name without the separator, `get_aggregate_var`
returns `none` whatever the other arguments are; and for a name with at
least one separator, with a dataframe provided and `check_all_levels=True`
it walks upward from the immediate parent toward the root
(`ancestorCandidates`, immediate parent first) and returns the first
ancestor name present in the dataframe's variables, `none` when no ancestor
is present. -/
theorem get_aggregate_var_parent_contract (varname : PyStr) :
    (sep ∉ varname → ∀ iamdf b, get_aggregate_var varname iamdf b = none)
    ∧ (sep ∈ varname → ∀ known, get_aggregate_var varname (some known) true =
        (ancestorCandidates (splitSep varname) ((splitSep varname).length - 1)).find?
          (fun c => c ∈ known))
    ∧ (sep ∈ varname → ∀ known,
        (∀ c ∈ ancestorCandidates (splitSep varname) ((splitSep varname).length - 1),
          c ∉ known) →
        get_aggregate_var varname (some known) true = none) := by
  refine ⟨?_, ?_, ?_⟩
  · intro h iamdf b
    simp [get_aggregate_var, h]
  · intro h known
    simp [get_aggregate_var, h, findAncestorAux_eq_find]
  · intro h known hnone
    have h2 := h
    simp only [get_aggregate_var, h2, not_true_eq_false, if_false, if_true]
    simp only [findAncestorAux_eq_find]
    rw [List.find?_eq_none]
    intro c hc
    simpa using hnone c hc

/-- Witness for C7 at a concrete input: the grandparent "A" is returned for
"A|B|C" because it is the first ancestor present in the known set. -/
theorem get_aggregate_var_parent_contract_witness :
    get_aggregate_var ("A|B|C").data (some [("A").data]) true = some (("A").data) := by
  rw [(get_aggregate_var_parent_contract (("A|B|C").data)).2.1 (by decide) [("A").data]]
  decide

/-- C10: when no dataframe is supplied (`iamdf=None`), `get_aggregate_var`
on a name with at least one separator returns the name with its last
segment removed, performing no membership check — in contrast to the
`parent_of` contract: the same name with an (empty) known set and
`check_all_levels=False` yields `none` because the parent is not a known
name. -/
theorem get_aggregate_var_no_iamdf (varname : PyStr) (b : Bool) (hsep : sep ∈ varname) :
    ∃ parent lastSeg, get_aggregate_var varname none b = some parent
      ∧ varname = parent ++ sep :: lastSeg ∧ sep ∉ lastSeg
      ∧ get_aggregate_var varname (some []) false = none := by
  have hne : splitSep varname ≠ [] := splitSep_ne_nil varname
  have hlen : 2 ≤ (splitSep varname).length := splitSep_length_ge_two varname hsep
  have hdecomp : (splitSep varname).dropLast ++ [(splitSep varname).getLast hne] =
      splitSep varname := List.dropLast_append_getLast hne
  have hdlne : (splitSep varname).dropLast ≠ [] := by
    have hl : (splitSep varname).dropLast.length = (splitSep varname).length - 1 :=
      List.length_dropLast _
    intro h0
    rw [h0] at hl
    simp at hl
    omega
  refine ⟨joinSep (splitSep varname).dropLast, (splitSep varname).getLast hne, ?_, ?_, ?_, ?_⟩
  · simp [get_aggregate_var, hsep]
  · conv_lhs => rw [← joinSep_splitSep varname, ← hdecomp]
    exact joinSep_append_single _ _ hdlne
  · exact sep_not_mem_of_mem_splitSep varname _ (List.getLast_mem hne)
  · simp [get_aggregate_var, hsep]

/-- Witness for C10 at a concrete input: "A|B|C" without a dataframe. -/
theorem get_aggregate_var_no_iamdf_witness :
    ∃ parent lastSeg, get_aggregate_var ("A|B|C").data none true = some parent
      ∧ ("A|B|C").data = parent ++ sep :: lastSeg ∧ sep ∉ lastSeg
      ∧ get_aggregate_var ("A|B|C").data (some []) false = none :=
  get_aggregate_var_no_iamdf (("A|B|C").data) true (by decide)

/-- C4 (amended): `get_component_vars` returns the empty list when the
queried name itself is absent from the known names; when the name is
present, it returns exactly the known names that start with the name
followed by the separator and whose separator count exceeds the name's by
at most the given depth (all such names when the depth is unlimited).  It
never returns the name itself, and "Energy|Supply2" is never returned as a
child of "Energy|Supply". -/
theorem get_component_vars_spec (varname : PyStr) (idfVars : List PyStr) (d : Option Int) :
    (varname ∉ idfVars → get_component_vars varname idfVars d = [])
    ∧ (varname ∈ idfVars → ∀ v, v ∈ get_component_vars varname idfVars d ↔
        (v ∈ idfVars ∧ (∃ t, v = varname ++ sep :: t) ∧
          ∀ k, d = some k → (v.count sep : Int) - (varname.count sep : Int) ≤ k))
    ∧ varname ∉ get_component_vars varname idfVars d
    ∧ (∀ known d2,
        ("Energy|Supply2").data ∉ get_component_vars (("Energy|Supply").data) known d2) := by
  have hmem : ∀ (w : PyStr) (kn : List PyStr) (dd : Option Int), w ∈ kn →
      ∀ v, v ∈ get_component_vars w kn dd ↔
        (v ∈ kn ∧ (∃ t, v = w ++ sep :: t) ∧
          ∀ k, dd = some k → (v.count sep : Int) - (w.count sep : Int) ≤ k) := by
    intro w kn dd hw v
    simp only [get_component_vars, hw, not_true_eq_false, if_false, List.mem_filter,
      Bool.and_eq_true]
    constructor
    · rintro ⟨hv, hpre, hdepth⟩
      refine ⟨hv, ?_, ?_⟩
      · rcases (pyStartsWith_iff v (w ++ [sep])).mp hpre with ⟨t, rfl⟩
        exact ⟨t, by simp⟩
      · intro k hk
        rw [hk] at hdepth
        simpa using hdepth
    · rintro ⟨hv, ⟨t, rfl⟩, hdepth⟩
      refine ⟨hv, ?_, ?_⟩
      · exact (pyStartsWith_iff _ (w ++ [sep])).mpr ⟨t, by simp⟩
      · cases dd with
        | none => rfl
        | some k => simpa using hdepth k rfl
  refine ⟨?_, fun hw => hmem varname idfVars d hw, ?_, ?_⟩
  · intro h
    simp [get_component_vars, h]
  · intro hself
    by_cases hw : varname ∈ idfVars
    · rcases ((hmem varname idfVars d hw varname).mp hself).2.1 with ⟨t, habs⟩
      have : varname.length = varname.length + 1 + t.length := by
        conv_lhs => rw [habs]
        simp [List.length_append]
        omega
      omega
    · rw [(by simp [get_component_vars, hw] :
        get_component_vars varname idfVars d = [])] at hself
      simp at hself
  · intro known d2 hself
    by_cases hw : ("Energy|Supply").data ∈ known
    · rcases ((hmem _ known d2 hw _).mp hself).2.1 with ⟨t, habs⟩
      have : pyStartsWith (("Energy|Supply2").data)
          ((("Energy|Supply").data) ++ [sep]) = true := by
        rw [pyStartsWith_iff]
        exact ⟨t, by simpa using habs⟩
      exact absurd this (by decide)
    · rw [(by simp [get_component_vars, hw] :
        get_component_vars (("Energy|Supply").data) known d2 = [])] at hself
      simp at hself

/-- Witness for C4 (amended) at a concrete input: with "A" itself known,
its child "A|1" is returned at unlimited depth. -/
theorem get_component_vars_spec_witness :
    ("A|1").data ∈ get_component_vars ("A").data [("A").data, ("A|1").data] none :=
  ((get_component_vars_spec (("A").data) [("A").data, ("A|1").data] none).2.1
      (by decide) (("A|1").data)).mpr
    ⟨by decide, ⟨("1").data, by decide⟩, fun k hk => nomatch hk⟩

/-- C4 counterexample: with known names not containing the queried name
itself, a known name that does start with the name plus separator (depth
unlimited) is nevertheless not returned, because the source first requires
the queried name to be present in the known names. -/
theorem get_component_vars_claim_counterexample :
    ("A|1").data ∉ get_component_vars ("A").data [("A|1").data] none
      ∧ ("A|1").data ∈ [("A|1").data]
      ∧ ∃ t, ("A|1").data = ("A").data ++ sep :: t :=
  ⟨by decide, by decide, ⟨("1").data, by decide⟩⟩

/-- The `components` attribute of a `nomenclature` `VariableCode`: either a
plain list of component variable names, or a list of named alternative
component lists (independent disaggregation hierarchies). -/
inductive CompSpec where
  | simple (comps : List PyStr)
  | multi (alts : List (PyStr × List PyStr))
deriving DecidableEq

/-- Embedding of `nomenclature.code.VariableCode`, restricted to the
attributes the aggregation checkers read. -/
structure VariableCode where
  check_aggregate : Bool
  components : Option CompSpec
  skip_region_aggregation : Bool
deriving DecidableEq

/-- Python dict access as association-list lookup: the first entry with the
given key (`d[k]`, `d.get(k)`, `k in d`). -/
def alookup {β : Type} (l : List (PyStr × β)) (k : PyStr) : Option β :=
  (l.find? (fun p => p.1 = k)).map Prod.snd

theorem alookup_nil {β : Type} (v : PyStr) : alookup ([] : List (PyStr × β)) v = none := rfl

theorem alookup_cons {β : Type} (x : PyStr) (b : β) (rest : List (PyStr × β)) (v : PyStr) :
    alookup ((x, b) :: rest) v = if x = v then some b else alookup rest v := by
  by_cases h : x = v <;> simp [alookup, List.find?, h]

/-- A failed-checks table: rows of (aggregate value, component sum),
produced by the external check routine; the claims below treat its
contents as a black box. -/
abbrev FailTable := List (Rat × Rat)

/-- The entry that `check_var_aggregates` leaves in `component_map` for a
checkable variable after the `None`-replacement loop (source lines
236-247): the codelist's explicit `components` attribute if set, otherwise
all direct (depth-1) descendants of the name present in the dataframe. -/
def componentMapEntry (idfVars : List PyStr) (name : PyStr) (code : VariableCode) : CompSpec :=
  match code.components with
  | some cs => cs
  | none => CompSpec.simple (get_component_vars name idfVars (some 1))

/-- Embedding of `aggregation.VarAggregationCheckResult` (source lines
17-67), keeping the source's field names, including the misspelled
`unkonwn`.  The `dsd` field holds the variable codelist of the
`DataStructureDefinition` that was used. -/
structure VarAggregationCheckResult where
  failed_checks : Option FailTable
  aggregation_map : List (PyStr × CompSpec)
  not_checked : List PyStr
  unkonwn : List PyStr
  dsd : List (PyStr × VariableCode)
  rtol : Option Rat
  atol : Option Rat

/-- Embedding of `aggregation.check_var_aggregates` (source lines 162-269).
The dataframe is represented by its variable-name list (the function reads
nothing else of it before handing it to the external check), `dsd` by its
variable codelist.  The external `dsd.check_aggregate` call is the
parameter `extCheckAggregate`, receiving the names the source filters the
dataframe to and the tolerance keyword arguments exactly as forwarded: a
tolerance is passed through only when the caller supplied it (source lines
252-260). -/
def check_var_aggregates (idfVars : List PyStr) (dsd : List (PyStr × VariableCode))
    (extCheckAggregate : List PyStr → Option Rat → Option Rat → Option FailTable)
    (atol rtol : Option Rat) : VarAggregationCheckResult :=
  let common_vars : List (PyStr × VariableCode) :=
    idfVars.filterMap (fun x => (alookup dsd x).map (fun c => (x, c)))
  let vars_to_check := common_vars.filter (fun p => p.2.check_aggregate)
  { failed_checks := extCheckAggregate (vars_to_check.map Prod.fst) rtol atol
    aggregation_map := vars_to_check.map (fun p => (p.1, componentMapEntry idfVars p.1 p.2))
    not_checked := (common_vars.filter (fun p => !p.2.check_aggregate)).map Prod.fst
    unkonwn := idfVars.filter (fun v => (alookup dsd v).isNone)
    dsd := dsd
    rtol := rtol
    atol := atol }

theorem alookup_vars_to_check (idfVars : List PyStr) (dsd : List (PyStr × VariableCode))
    (v : PyStr) (code : VariableCode) (hv : v ∈ idfVars) (hc : alookup dsd v = some code)
    (hchk : code.check_aggregate = true) :
    alookup ((idfVars.filterMap (fun x => (alookup dsd x).map (fun c => (x, c)))).filter
      (fun p => p.2.check_aggregate)) v = some code := by
  induction idfVars with
  | nil => simp at hv
  | cons x xs ih =>
    by_cases hx : x = v
    · subst hx
      simp only [List.filterMap_cons, hc, Option.map_some']
      rw [List.filter_cons_of_pos (by simpa using hchk), alookup_cons]
      simp
    · have hv' : v ∈ xs := by
        rcases List.mem_cons.mp hv with h | h
        · exact absurd h.symm hx
        · exact h
      cases hax : alookup dsd x with
      | none =>
        simp only [List.filterMap_cons, hax, Option.map_none']
        exact ih hv'
      | some c =>
        simp only [List.filterMap_cons, hax, Option.map_some']
        by_cases hcc : c.check_aggregate = true
        · rw [List.filter_cons_of_pos (by simpa using hcc), alookup_cons]
          simp only [hx, if_false]
          exact ih hv'
        · rw [List.filter_cons_of_neg (by simpa using hcc)]
          exact ih hv'

theorem alookup_map_entry {β γ : Type} (l : List (PyStr × β)) (e : PyStr → β → γ) (v : PyStr) :
    alookup (l.map (fun p => (p.1, e p.1 p.2))) v = (alookup l v).map (e v) := by
  induction l with
  | nil => rfl
  | cons p rest ih =>
    obtain ⟨x, b⟩ := p
    simp only [List.map_cons]
    rw [alookup_cons, alookup_cons]
    by_cases h : x = v
    · subst h; simp
    · simp [h, ih]

/-- C3: for every variable present in both the dataset and the codelist
with `check_aggregate` set, the `aggregation_map` entry equals the
codelist's explicit `components` attribute when that attribute is set
(single list or alternatives alike), and otherwise the direct (depth-1)
descendants of the name present in the dataset as returned by
`get_component_vars`. -/
theorem check_var_aggregates_aggregation_map (idfVars : List PyStr)
    (dsd : List (PyStr × VariableCode))
    (extCheckAggregate : List PyStr → Option Rat → Option Rat → Option FailTable)
    (atol rtol : Option Rat) (v : PyStr) (code : VariableCode)
    (hv : v ∈ idfVars) (hc : alookup dsd v = some code)
    (hchk : code.check_aggregate = true) :
    alookup (check_var_aggregates idfVars dsd extCheckAggregate atol rtol).aggregation_map v =
      some (match code.components with
        | some cs => cs
        | none => CompSpec.simple (get_component_vars v idfVars (some 1))) := by
  show alookup (((idfVars.filterMap (fun x => (alookup dsd x).map (fun c => (x, c)))).filter
      (fun p => p.2.check_aggregate)).map
        (fun p => (p.1, componentMapEntry idfVars p.1 p.2))) v = _
  rw [alookup_map_entry, alookup_vars_to_check idfVars dsd v code hv hc hchk]
  rfl

/-- Witness for C3 at a concrete input: variable "A" is checkable with no
explicit components, so its entry is the inferred direct descendant list. -/
theorem check_var_aggregates_aggregation_map_witness :
    alookup (check_var_aggregates [("A").data, ("A|1").data]
        [(("A").data, ⟨true, none, false⟩)] (fun _ _ _ => none) none none).aggregation_map
      (("A").data) = some (CompSpec.simple [("A|1").data]) :=
  check_var_aggregates_aggregation_map [("A").data, ("A|1").data]
    [(("A").data, ⟨true, none, false⟩)] (fun _ _ _ => none) none none
    (("A").data) ⟨true, none, false⟩ (by decide) (by decide) rfl

theorem mem_common_vars_iff (idfVars : List PyStr) (dsd : List (PyStr × VariableCode))
    (x : PyStr) (c : VariableCode) :
    (x, c) ∈ idfVars.filterMap (fun w => (alookup dsd w).map (fun b => (w, b))) ↔
      x ∈ idfVars ∧ alookup dsd x = some c := by
  simp only [List.mem_filterMap, Option.map_eq_some', Prod.mk.injEq]
  constructor
  · rintro ⟨w, hw, b, hb, rfl, rfl⟩
    exact ⟨hw, hb⟩
  · rintro ⟨hx, hc⟩
    exact ⟨x, hx, c, hc, rfl, rfl⟩

theorem mem_unkonwn_iff (idfVars : List PyStr) (dsd : List (PyStr × VariableCode))
    (extCheckAggregate : List PyStr → Option Rat → Option Rat → Option FailTable)
    (atol rtol : Option Rat) (v : PyStr) :
    v ∈ (check_var_aggregates idfVars dsd extCheckAggregate atol rtol).unkonwn ↔
      v ∈ idfVars ∧ alookup dsd v = none := by
  show v ∈ idfVars.filter (fun w => (alookup dsd w).isNone) ↔ _
  simp [List.mem_filter, Option.isNone_iff_eq_none]

theorem mem_not_checked_iff (idfVars : List PyStr) (dsd : List (PyStr × VariableCode))
    (extCheckAggregate : List PyStr → Option Rat → Option Rat → Option FailTable)
    (atol rtol : Option Rat) (v : PyStr) :
    v ∈ (check_var_aggregates idfVars dsd extCheckAggregate atol rtol).not_checked ↔
      ∃ c, v ∈ idfVars ∧ alookup dsd v = some c ∧ c.check_aggregate = false := by
  show v ∈ ((idfVars.filterMap (fun w => (alookup dsd w).map (fun b => (w, b)))).filter
      (fun p => !p.2.check_aggregate)).map Prod.fst ↔ _
  simp only [List.mem_map, List.mem_filter, Bool.not_eq_true']
  constructor
  · rintro ⟨⟨x, c⟩, ⟨hmem, hchk⟩, rfl⟩
    rcases (mem_common_vars_iff idfVars dsd x c).mp hmem with ⟨hx, hc⟩
    exact ⟨c, hx, hc, hchk⟩
  · rintro ⟨c, hx, hc, hchk⟩
    exact ⟨(v, c), ⟨(mem_common_vars_iff idfVars dsd v c).mpr ⟨hx, hc⟩, hchk⟩, rfl⟩

theorem mem_aggregation_map_keys_iff (idfVars : List PyStr)
    (dsd : List (PyStr × VariableCode))
    (extCheckAggregate : List PyStr → Option Rat → Option Rat → Option FailTable)
    (atol rtol : Option Rat) (v : PyStr) :
    v ∈ (check_var_aggregates idfVars dsd extCheckAggregate atol rtol).aggregation_map.map
        Prod.fst ↔
      ∃ c, v ∈ idfVars ∧ alookup dsd v = some c ∧ c.check_aggregate = true := by
  show v ∈ (((idfVars.filterMap (fun w => (alookup dsd w).map (fun b => (w, b)))).filter
      (fun p => p.2.check_aggregate)).map
        (fun p => (p.1, componentMapEntry idfVars p.1 p.2))).map Prod.fst ↔ _
  simp only [List.map_map, List.mem_map, List.mem_filter, Function.comp]
  constructor
  · rintro ⟨⟨x, c⟩, ⟨hmem, hchk⟩, rfl⟩
    rcases (mem_common_vars_iff idfVars dsd x c).mp hmem with ⟨hx, hc⟩
    exact ⟨c, hx, hc, hchk⟩
  · rintro ⟨c, hx, hc, hchk⟩
    exact ⟨(v, c), ⟨(mem_common_vars_iff idfVars dsd v c).mpr ⟨hx, hc⟩, hchk⟩, rfl⟩

/-- C9: each variable name occurring in the dataset is placed by
`check_var_aggregates` into exactly one of the three groups of the result:
`unkonwn` (absent from the codelist), `not_checked` (present but without
`check_aggregate`), or the keys of `aggregation_map` (present with
`check_aggregate`). -/
theorem check_var_aggregates_partition (idfVars : List PyStr)
    (dsd : List (PyStr × VariableCode))
    (extCheckAggregate : List PyStr → Option Rat → Option Rat → Option FailTable)
    (atol rtol : Option Rat) (res : VarAggregationCheckResult) (v : PyStr)
    (hres : res = check_var_aggregates idfVars dsd extCheckAggregate atol rtol)
    (hv : v ∈ idfVars) :
    (v ∈ res.unkonwn ∧ v ∉ res.not_checked ∧ v ∉ res.aggregation_map.map Prod.fst)
    ∨ (v ∉ res.unkonwn ∧ v ∈ res.not_checked ∧ v ∉ res.aggregation_map.map Prod.fst)
    ∨ (v ∉ res.unkonwn ∧ v ∉ res.not_checked ∧ v ∈ res.aggregation_map.map Prod.fst) := by
  subst hres
  rw [mem_unkonwn_iff, mem_not_checked_iff, mem_aggregation_map_keys_iff]
  cases hlook : alookup dsd v with
  | none =>
    refine Or.inl ⟨⟨hv, rfl⟩, ?_, ?_⟩
    · rintro ⟨c, _, hc, _⟩
      exact Option.noConfusion hc
    · rintro ⟨c, _, hc, _⟩
      exact Option.noConfusion hc
  | some c =>
    cases hchk : c.check_aggregate with
    | false =>
      refine Or.inr (Or.inl ⟨?_, ⟨c, hv, rfl, hchk⟩, ?_⟩)
      · rintro ⟨_, habs⟩
        exact Option.noConfusion habs
      · rintro ⟨c2, _, hc2, hchk2⟩
        cases hc2
        rw [hchk] at hchk2
        exact Bool.noConfusion hchk2
    | true =>
      refine Or.inr (Or.inr ⟨?_, ?_, ⟨c, hv, rfl, hchk⟩⟩)
      · rintro ⟨_, habs⟩
        exact Option.noConfusion habs
      · rintro ⟨c2, _, hc2, hchk2⟩
        cases hc2
        rw [hchk] at hchk2
        exact Bool.noConfusion hchk2

/-- Witness for C9 at a concrete input: variable "A" is checkable, so it
lands in the aggregation-map keys and in neither other group. -/
theorem check_var_aggregates_partition_witness :
    (("A").data ∈ (check_var_aggregates [("A").data]
          [(("A").data, ⟨true, none, false⟩)] (fun _ _ _ => none) none none).unkonwn
        ∧ ("A").data ∉ (check_var_aggregates [("A").data]
          [(("A").data, ⟨true, none, false⟩)] (fun _ _ _ => none) none none).not_checked
        ∧ ("A").data ∉ (check_var_aggregates [("A").data]
          [(("A").data, ⟨true, none, false⟩)] (fun _ _ _ => none) none
            none).aggregation_map.map Prod.fst)
    ∨ (("A").data ∉ (check_var_aggregates [("A").data]
          [(("A").data, ⟨true, none, false⟩)] (fun _ _ _ => none) none none).unkonwn
        ∧ ("A").data ∈ (check_var_aggregates [("A").data]
          [(("A").data, ⟨true, none, false⟩)] (fun _ _ _ => none) none none).not_checked
        ∧ ("A").data ∉ (check_var_aggregates [("A").data]
          [(("A").data, ⟨true, none, false⟩)] (fun _ _ _ => none) none
            none).aggregation_map.map Prod.fst)
    ∨ (("A").data ∉ (check_var_aggregates [("A").data]
          [(("A").data, ⟨true, none, false⟩)] (fun _ _ _ => none) none none).unkonwn
        ∧ ("A").data ∉ (check_var_aggregates [("A").data]
          [(("A").data, ⟨true, none, false⟩)] (fun _ _ _ => none) none none).not_checked
        ∧ ("A").data ∈ (check_var_aggregates [("A").data]
          [(("A").data, ⟨true, none, false⟩)] (fun _ _ _ => none) none
            none).aggregation_map.map Prod.fst) :=
  check_var_aggregates_partition [("A").data] [(("A").data, ⟨true, none, false⟩)]
    (fun _ _ _ => none) none none _ (("A").data) rfl (by decide)

/-- Default relative tolerance of the external `numpy.isclose`
(`rtol = 1e-5`), used when `check_var_aggregates` forwards no `rtol`. -/
def default_rtol : Rat := 1 / 100000

/-- Default absolute tolerance of the external `numpy.isclose`
(`atol = 1e-8`), used when `check_var_aggregates` forwards no `atol`. -/
def default_atol : Rat := 1 / 100000000

/-- Modelled from the spec: the closeness comparison performed inside the
external `DataStructureDefinition.check_aggregate` collaborator (the
`numpy.isclose` semantics, over exact rationals).  `check_var_aggregates`
itself only forwards `rtol`/`atol` when the caller supplied them (source
lines 252-260), so a missing tolerance takes the numpy default; a
comparison fails when the absolute difference exceeds
`atol + rtol * |aggregate|`. -/
def varAggComparisonFails (aggregate components_sum : Rat)
    (rtol atol : Option Rat) : Bool :=
  decide (atol.getD default_atol + rtol.getD default_rtol * |aggregate|
    < |aggregate - components_sum|)

/-- C6: a comparison between an aggregate and its components' sum fails
exactly when `|aggregate - components_sum| > atol + rtol * |aggregate|`
(tolerances combined additively), with defaults `rtol = 1e-5` and
`atol = 1e-8` when the caller does not override them; with `rtol = 0`, an
aggregate exactly `atol` above the component sum passes and any positive
overshoot beyond that fails. -/
theorem varAggComparisonFails_spec (aggregate components_sum : Rat) :
    (∀ r a : Rat, varAggComparisonFails aggregate components_sum (some r) (some a) = true ↔
      a + r * |aggregate| < |aggregate - components_sum|)
    ∧ (varAggComparisonFails aggregate components_sum none none = true ↔
      (1 : Rat) / 100000000 + (1 : Rat) / 100000 * |aggregate| <
        |aggregate - components_sum|)
    ∧ (∀ a : Rat, 0 ≤ a →
        varAggComparisonFails (components_sum + a) components_sum (some 0) (some a) = false)
    ∧ (∀ a eps : Rat, 0 ≤ a → 0 < eps →
        varAggComparisonFails (components_sum + a + eps) components_sum
          (some 0) (some a) = true) := by
  refine ⟨?_, ?_, ?_, ?_⟩
  · intro r a
    simp [varAggComparisonFails]
  · simp [varAggComparisonFails, default_rtol, default_atol]
  · intro a ha
    simp only [varAggComparisonFails, Option.getD_some, decide_eq_false_iff_not, not_lt]
    have habs : |components_sum + a - components_sum| = a := by
      rw [add_sub_cancel_left, abs_of_nonneg ha]
    rw [habs]
    nlinarith [abs_nonneg (components_sum + a)]
  · intro a eps ha heps
    simp only [varAggComparisonFails, Option.getD_some, decide_eq_true_eq]
    have habs : |components_sum + a + eps - components_sum| = a + eps := by
      have : components_sum + a + eps - components_sum = a + eps := by ring
      rw [this, abs_of_nonneg (by linarith)]
    rw [habs]
    nlinarith [abs_nonneg (components_sum + a + eps)]

/-- Witness for C6 at concrete inputs: with `rtol = 0` and `atol = 1`, an
aggregate exactly `1` above the component sum passes. -/
theorem varAggComparisonFails_spec_witness :
    varAggComparisonFails ((0 : Rat) + 1) 0 (some 0) (some 1) = false :=
  (varAggComparisonFails_spec 0 0).2.2.1 1 (by norm_num)

/-- Python exceptions raised or caught by the embedded functions. -/
inductive PyErr where
  | keyError (key : PyStr)
  | valueError (msg : PyStr)
  | typeError (msg : PyStr)
deriving DecidableEq

/-- First-occurrence deduplication, embedding Python
`list(dict.fromkeys(...))` at source line 384. -/
def pyDedupAux (seen : List PyStr) : List PyStr → List PyStr
  | [] => []
  | x :: xs => if x ∈ seen then pyDedupAux seen xs else x :: pyDedupAux (x :: seen) xs

/-- See `pyDedupAux`. -/
def pyDedup (l : List PyStr) : List PyStr := pyDedupAux [] l

/-- The keyword-argument keys `check_var_aggregates_manual` accepts beyond
its signature (source line 355). -/
def manual_extra_kwarg_keys : List PyStr := [("rtol").data, ("atol").data]

/-- Embedding of the invalid-key computation at source lines 354-355. -/
def invalid_kwarg_keys (kwargs : List PyStr) : List PyStr :=
  kwargs.filter (fun k => k ∉ manual_extra_kwarg_keys)

/-- The TypeError message built at source lines 357-362. -/
def manualKwargErrorMsg (invalid : List PyStr) : PyStr :=
  ("Invalid keyword argument").data
    ++ (if invalid.length > 1 then ("s").data else [])
    ++ (" for check_var_aggregates: ").data
    ++ pyJoin ((", ").data) invalid
    ++ (". The only valid keyword arguments beyond the ones in the ").data
    ++ ("function signature are \"rtol\" and \"atol\".").data

/-- Embedding of `aggregation.check_var_aggregates_manual` (source lines
272-407).  `kwargs` carries the keys of the caller's extra keyword
arguments (their values are only forwarded to the external
`iamdf.check_aggregate`, which is the parameter `extCheckAggregate`,
yielding each aggregate variable's failed-checks table or `None`). -/
def check_var_aggregates_manual (idfVars : List PyStr) (varlist : Option (List PyStr))
    (num_sublevels : Option Int) (kwargs : List PyStr)
    (extCheckAggregate : PyStr → Option FailTable) :
    Except PyErr (Option FailTable × List (PyStr × List PyStr)) :=
  if (invalid_kwarg_keys kwargs).length > 0 then
    Except.error (PyErr.typeError (manualKwargErrorMsg (invalid_kwarg_keys kwargs)))
  else
    let variables0 := match varlist with
      | some vs => vs
      | none => idfVars.filter (fun v => (get_aggregate_var v (some idfVars) false).isNone)
    let vars_to_check0 := variables0 ++ (if num_sublevels ≠ some 0 then
        (variables0.map (fun v => get_component_vars v idfVars num_sublevels)).flatten
      else [])
    let checked := (pyDedup vars_to_check0).filterMap (fun v =>
      let subvars := get_component_vars v idfVars (some 1)
      if subvars.length > 0 then some (v, subvars, extCheckAggregate v) else none)
    let failed_list := checked.filterMap (fun p => p.2.2)
    Except.ok ((if failed_list.length = 0 then none else some failed_list.flatten),
      checked.map (fun p => (p.1, p.2.1)))

theorem pyJoin_mem_parts (j : PyStr) (l : List PyStr) (k : PyStr) (h : k ∈ l) :
    ∃ s t, pyJoin j l = s ++ k ++ t := by
  induction l with
  | nil => simp at h
  | cons x xs ih =>
    cases xs with
    | nil =>
      simp only [List.mem_singleton] at h
      subst h
      exact ⟨[], [], by simp [pyJoin]⟩
    | cons y ys =>
      rcases List.mem_cons.mp h with rfl | hmem
      · exact ⟨[], j ++ pyJoin j (y :: ys), by simp [pyJoin]⟩
      · rcases ih hmem with ⟨s, t, hst⟩
        refine ⟨x ++ j ++ s, t, ?_⟩
        simp only [pyJoin, hst]
        simp [List.append_assoc]

/-- C8: supplying any keyword option beyond `rtol` and `atol` makes
`check_var_aggregates_manual` raise a `TypeError` whose message contains
the offending option names joined together — in particular every single
offending name; with only supported options, no such error is raised. -/
theorem check_var_aggregates_manual_kwargs (idfVars : List PyStr)
    (varlist : Option (List PyStr)) (num_sublevels : Option Int) (kwargs : List PyStr)
    (extCheckAggregate : PyStr → Option FailTable) :
    (invalid_kwarg_keys kwargs ≠ [] →
      ∃ msg, check_var_aggregates_manual idfVars varlist num_sublevels kwargs
          extCheckAggregate = Except.error (PyErr.typeError msg)
        ∧ (∃ s t, msg = s ++ pyJoin ((", ").data) (invalid_kwarg_keys kwargs) ++ t)
        ∧ ∀ k ∈ invalid_kwarg_keys kwargs, ∃ s t, msg = s ++ k ++ t)
    ∧ (invalid_kwarg_keys kwargs = [] →
      ∃ out, check_var_aggregates_manual idfVars varlist num_sublevels kwargs
          extCheckAggregate = Except.ok out) := by
  constructor
  · intro hne
    have hlen : (invalid_kwarg_keys kwargs).length > 0 :=
      List.length_pos.mpr hne
    refine ⟨manualKwargErrorMsg (invalid_kwarg_keys kwargs), ?_, ?_, ?_⟩
    · unfold check_var_aggregates_manual
      rw [if_pos hlen]
    · refine ⟨("Invalid keyword argument").data
          ++ (if (invalid_kwarg_keys kwargs).length > 1 then ("s").data else [])
          ++ (" for check_var_aggregates: ").data,
        (". The only valid keyword arguments beyond the ones in the ").data
          ++ ("function signature are \"rtol\" and \"atol\".").data, ?_⟩
      simp [manualKwargErrorMsg, List.append_assoc]
    · intro k hk
      rcases pyJoin_mem_parts ((", ").data) _ k hk with ⟨s, t, hst⟩
      refine ⟨("Invalid keyword argument").data
          ++ (if (invalid_kwarg_keys kwargs).length > 1 then ("s").data else [])
          ++ (" for check_var_aggregates: ").data ++ s,
        t ++ (". The only valid keyword arguments beyond the ones in the ").data
          ++ ("function signature are \"rtol\" and \"atol\".").data, ?_⟩
      simp [manualKwargErrorMsg, hst, List.append_assoc]
  · intro heq
    cases hcall : check_var_aggregates_manual idfVars varlist num_sublevels kwargs
        extCheckAggregate with
    | error e =>
      exfalso
      unfold check_var_aggregates_manual at hcall
      rw [heq] at hcall
      simp at hcall
    | ok out => exact ⟨out, rfl⟩

/-- Witness for C8 at a concrete input: the unsupported option "foo" is
rejected with a TypeError naming it. -/
theorem check_var_aggregates_manual_kwargs_witness :
    ∃ msg, check_var_aggregates_manual [] none none [("foo").data] (fun _ => none)
        = Except.error (PyErr.typeError msg)
      ∧ (∃ s t, msg = s ++ pyJoin ((", ").data) (invalid_kwarg_keys [("foo").data]) ++ t)
      ∧ ∀ k ∈ invalid_kwarg_keys [("foo").data], ∃ s t, msg = s ++ k ++ t :=
  (check_var_aggregates_manual_kwargs [] none none [("foo").data] (fun _ => none)).1
    (by decide)

/-- One observation row of an IAMC dataframe.  Only the dimensions the
region checker reads are modelled; scenario/unit/time/value stay behind
the external check call. -/
structure Row where
  model : PyStr
  region : PyStr
  varname : PyStr
deriving DecidableEq

/-- Embedding of `iamdf.model`: the distinct model names of a dataframe (pyam returns
the distinct values; only the set of names matters below). -/
def dfModels (df : List Row) : List PyStr := (df.map Row.model).dedup

/-- Embedding of `iamdf.region`: the distinct region names of a dataframe (slice). -/
def dfRegions (df : List Row) : List PyStr := (df.map Row.region).dedup

/-- Embedding of `iamdf.variable`: the distinct variable names of a dataframe. -/
def dfVariables (df : List Row) : List PyStr := (df.map Row.varname).dedup

/-- Embedding of a `nomenclature` common region: its name and constituent
native regions. -/
structure CommonRegion where
  name : PyStr
  constituent_regions : List PyStr
deriving DecidableEq

/-- Embedding of a `nomenclature` `RegionAggregationMapping` for one model,
restricted to the attributes `check_region_aggregates` reads. -/
structure RegionAggregationMapping where
  model_native_region_names : List PyStr
  common_regions : Option (List CommonRegion)
deriving DecidableEq

/-- Embedding of `nomenclature.RegionProcessor`: the per-model mappings
plus the codelists it references. -/
structure RegionProcessor where
  mappings : List (PyStr × RegionAggregationMapping)
  variable_codelist : List (PyStr × VariableCode)
  region_codelist : List PyStr
deriving DecidableEq

/-- Embedding of `nomenclature.DataStructureDefinition`: the `variable` and
`region` codelists read by the checkers (`dsd.variable`, `dsd.region`). -/
structure DataStructureDefinition where
  variable_codelist : List (PyStr × VariableCode)
  region_codelist : List PyStr
deriving DecidableEq

/-- Embedding of `aggregation._empty_list_if_none` (source lines 448-449). -/
def _empty_list_if_none {α : Type} (obj : Option (List α)) : List α :=
  match obj with
  | some l => l
  | none => []

/-- Evaluation of `processor.mappings[m].model_native_region_names` as a total function;
the source only evaluates it for models present in the mappings. -/
def nativeRegionNames (processor : RegionProcessor) (m : PyStr) : List PyStr :=
  match alookup processor.mappings m with
  | some mp => mp.model_native_region_names
  | none => []

/-- Evaluation of `_empty_list_if_none(processor.mappings[m].common_regions)` (source
lines 536-543), as a total function. -/
def commonRegionsOf (processor : RegionProcessor) (m : PyStr) : List CommonRegion :=
  match alookup processor.mappings m with
  | some mp => _empty_list_if_none mp.common_regions
  | none => []

/-- An element of the heterogeneous Python list
`aggregate_and_constituent_regions[m]` (source lines 551-555):
`list(keys) + list(itertools.chain(values))` applies `chain` to the values
view itself instead of unpacking it, so the second half holds whole
constituent-region lists as single elements rather than their strings. -/
inductive PyVal where
  | str (s : PyStr)
  | strList (l : List PyStr)
deriving DecidableEq

/-- A region failed-checks table: rows of (original value, aggregated sum,
percentage difference), produced externally; the claims treat it as a black box. -/
abbrev RegionFailTable := List (Rat × Rat × Rat)

/-- Embedding of `aggregation.RegionAggregationCheckResult` (source lines
70-158), keeping the source's field names, including the misspelled
`unkonwn_regions` and `unkonwn_vars`. -/
structure RegionAggregationCheckResult where
  failed_checks : Option RegionFailTable
  aggregation_map : List (PyStr × List (PyStr × List PyStr))
  common_aggregated_regions : List (PyStr × List PyStr)
  regions_not_checked : List (PyStr × List PyStr)
  vars_not_checked : List PyStr
  unknown_models : List PyStr
  unkonwn_regions : List (PyStr × List PyStr)
  unkonwn_vars : List PyStr
  dsd : DataStructureDefinition
  processor : RegionProcessor
  rtol : Option Rat
  processed_data : List Row

/-- Sequential evaluation of a Python comprehension whose body may raise:
it stops at the first exception, like the eager dict comprehension at
source lines 556-562. -/
def exceptMapList {α β : Type} (f : α → Except PyErr β) : List α → Except PyErr (List β)
  | [] => Except.ok []
  | a :: rest =>
    match f a with
    | Except.error e => Except.error e
    | Except.ok b =>
      match exceptMapList f rest with
      | Except.error e => Except.error e
      | Except.ok bs => Except.ok (b :: bs)

/-- The message of the ValueError raised at source lines 514-517. -/
def codelistMismatchMsg : PyStr :=
  ("The variable and region codelists in `dsd` and `processor` do not match.").data

/-- The pyam ValueError message caught at source line 587. -/
def noObjectsMsg : PyStr := ("No objects to concatenate").data

/-- Embedding of `models_to_check` (source lines 518-520): dataset models present in
the region-mapping store. -/
def models_to_check (iamdf : List Row) (processor : RegionProcessor) : List PyStr :=
  (dfModels iamdf).filter (fun m => (alookup processor.mappings m).isSome)

/-- The `unknown_regions` dict as first built at source lines 524-530:
per checked model, the slice's regions that are not among the model's
native region names. -/
def unknown_regions_all (iamdf : List Row) (processor : RegionProcessor) :
    List (PyStr × List PyStr) :=
  (models_to_check iamdf processor).map (fun m =>
    (m, (dfRegions (iamdf.filter (fun r => r.model = m))).filter
          (fun reg => reg ∉ nativeRegionNames processor m)))

/-- The `unknown_regions` dict after the pruning at source lines 531-535:
models with no unknown regions are removed. -/
def unknown_regions (iamdf : List Row) (processor : RegionProcessor) :
    List (PyStr × List PyStr) :=
  (unknown_regions_all iamdf processor).filter (fun p => p.2.length > 0)

/-- The `aggregation_map` built at source lines 536-543: per checked model,
the mapping from common-region name to constituent regions. -/
def region_aggregation_map (iamdf : List Row) (processor : RegionProcessor) :
    List (PyStr × List (PyStr × List PyStr)) :=
  (models_to_check iamdf processor).map (fun m =>
    (m, (commonRegionsOf processor m).map (fun cr => (cr.name, cr.constituent_regions))))

/-- Embedding of `common_aggregated_regions` (source lines 544-550): per checked model,
the slice's regions that are keys of that model's aggregation map. -/
def common_aggregated_regions (iamdf : List Row) (processor : RegionProcessor) :
    List (PyStr × List PyStr) :=
  (models_to_check iamdf processor).map (fun m =>
    (m, (dfRegions (iamdf.filter (fun r => r.model = m))).filter
          (fun reg => (alookup ((commonRegionsOf processor m).map
            (fun cr => (cr.name, cr.constituent_regions))) reg).isSome)))

/-- Embedding of `aggregate_and_constituent_regions[m]` (source lines 551-555),
including the `itertools.chain` misuse described at `PyVal`. -/
def aggregate_and_constituent_regions (processor : RegionProcessor) (m : PyStr) :
    List PyVal :=
  ((commonRegionsOf processor m).map (fun cr => PyVal.str cr.name))
    ++ ((commonRegionsOf processor m).map (fun cr => PyVal.strList cr.constituent_regions))

/-- The `regions_not_checked` dict comprehension at source lines 556-562.
Looking up `unknown_regions[_model]` raises a `KeyError` when the model was
pruned from `unknown_regions` (it had no unknown regions). -/
def regions_not_checked_E (iamdf : List Row) (processor : RegionProcessor) :
    Except PyErr (List (PyStr × List PyStr)) :=
  exceptMapList (fun m =>
    match alookup (unknown_regions iamdf processor) m with
    | none => Except.error (PyErr.keyError m)
    | some unk =>
      Except.ok (m,
        (dfRegions ((iamdf.filter (fun r => r.model = m)).filter
            (fun r => r.region ∉ unk))).filter
          (fun reg => PyVal.str reg ∉ aggregate_and_constituent_regions processor m)))
    (models_to_check iamdf processor)

/-- Assembly of the `RegionAggregationCheckResult` at source lines 563-573
and 593-606 (the variable bookkeeping plus the final record). -/
def mkRegionResult (iamdf : List Row) (dsd : DataStructureDefinition)
    (processor : RegionProcessor) (rtol_difference : Option Rat)
    (regions_not_checked : List (PyStr × List PyStr))
    (processed_data : List Row) (failed_checks : Option RegionFailTable) :
    RegionAggregationCheckResult :=
  { failed_checks := failed_checks
    aggregation_map := region_aggregation_map iamdf processor
    common_aggregated_regions := common_aggregated_regions iamdf processor
    regions_not_checked := regions_not_checked
    vars_not_checked := ((dfVariables iamdf).filter
        (fun v => (alookup dsd.variable_codelist v).isSome)).filter (fun v =>
      match alookup dsd.variable_codelist v with
      | some c => c.skip_region_aggregation
      | none => false)
    unknown_models := (dfModels iamdf).filter
      (fun m => m ∉ models_to_check iamdf processor)
    unkonwn_regions := unknown_regions iamdf processor
    unkonwn_vars := (dfVariables iamdf).filter (fun v =>
      v ∉ (dfVariables iamdf).filter (fun w => (alookup dsd.variable_codelist w).isSome))
    dsd := dsd
    processor := processor
    rtol := rtol_difference
    processed_data := processed_data }

/-- Embedding of `aggregation.check_region_aggregates` (source lines
451-607).  The external `processor.check_region_aggregation(df=iamdf, ...)`
call is the parameter `extCheck`: either the processed dataframe together
with the optional failed-checks table, or the exception that call raises.
The `try`/`except` at source lines 579-592 catches only the pyam
`ValueError('No objects to concatenate')` and degrades it to an empty
processed dataframe and a `None` failure table; every other exception
propagates. -/
def check_region_aggregates (iamdf : List Row) (dsd : DataStructureDefinition)
    (processor : RegionProcessor)
    (extCheck : Except PyErr (List Row × Option RegionFailTable))
    (rtol_difference : Option Rat) :
    Except PyErr RegionAggregationCheckResult :=
  if dsd.variable_codelist ≠ processor.variable_codelist
      ∨ dsd.region_codelist ≠ processor.region_codelist then
    Except.error (PyErr.valueError codelistMismatchMsg)
  else
    match regions_not_checked_E iamdf processor with
    | Except.error e => Except.error e
    | Except.ok regions_not_checked =>
      match extCheck with
      | Except.ok (pd, fc) =>
        Except.ok (mkRegionResult iamdf dsd processor rtol_difference
          regions_not_checked pd fc)
      | Except.error (PyErr.valueError msg) =>
        if msg = noObjectsMsg then
          Except.ok (mkRegionResult iamdf dsd processor rtol_difference
            regions_not_checked (iamdf.filter (fun r => r.model ∉ dfModels iamdf)) none)
        else Except.error (PyErr.valueError msg)
      | Except.error e => Except.error e

theorem exceptMapList_ok_of_forall {α β : Type} (f : α → Except PyErr β) (l : List α)
    (h : ∀ a ∈ l, ∃ b, f a = Except.ok b) :
    ∃ out, exceptMapList f l = Except.ok out := by
  induction l with
  | nil => exact ⟨[], rfl⟩
  | cons a rest ih =>
    rcases h a (List.mem_cons_self a rest) with ⟨b, hb⟩
    rcases ih (fun x hx => h x (List.mem_cons_of_mem a hx)) with ⟨out, hout⟩
    exact ⟨b :: out, by simp [exceptMapList, hb, hout]⟩

theorem exceptMapList_error {α β : Type} (f : α → Except PyErr β) (l : List α) (e : PyErr)
    (h : exceptMapList f l = Except.error e) : ∃ a ∈ l, f a = Except.error e := by
  induction l with
  | nil => simp [exceptMapList] at h
  | cons a rest ih =>
    unfold exceptMapList at h
    cases hfa : f a with
    | error e2 =>
      rw [hfa] at h
      simp only [Except.error.injEq] at h
      exact ⟨a, List.mem_cons_self a rest, by rw [hfa, h]⟩
    | ok b =>
      rw [hfa] at h
      cases hrest : exceptMapList f rest with
      | error e2 =>
        rw [hrest] at h
        simp only [Except.error.injEq] at h
        rcases ih (by rw [hrest, h]) with ⟨x, hx, hfx⟩
        exact ⟨x, List.mem_cons_of_mem a hx, hfx⟩
      | ok bs =>
        rw [hrest] at h
        cases h

theorem regions_not_checked_E_error_is_keyError (iamdf : List Row)
    (processor : RegionProcessor) (e : PyErr)
    (h : regions_not_checked_E iamdf processor = Except.error e) :
    ∃ m, e = PyErr.keyError m := by
  unfold regions_not_checked_E at h
  rcases exceptMapList_error _ _ _ h with ⟨m, _, hfm⟩
  cases halo : alookup (unknown_regions iamdf processor) m with
  | none =>
    rw [halo] at hfm
    simp only [Except.error.injEq] at hfm
    exact ⟨m, hfm.symm⟩
  | some unk =>
    rw [halo] at hfm
    cases hfm

theorem check_region_aggregates_mismatch (iamdf : List Row)
    (dsd : DataStructureDefinition) (processor : RegionProcessor)
    (extCheck : Except PyErr (List Row × Option RegionFailTable))
    (rtol_difference : Option Rat)
    (hmm : dsd.variable_codelist ≠ processor.variable_codelist
      ∨ dsd.region_codelist ≠ processor.region_codelist) :
    check_region_aggregates iamdf dsd processor extCheck rtol_difference
      = Except.error (PyErr.valueError codelistMismatchMsg) := by
  unfold check_region_aggregates
  rw [if_pos hmm]

theorem check_region_aggregates_rnc_error (iamdf : List Row)
    (dsd : DataStructureDefinition) (processor : RegionProcessor)
    (extCheck : Except PyErr (List Row × Option RegionFailTable))
    (rtol_difference : Option Rat) (e : PyErr)
    (hmm : ¬(dsd.variable_codelist ≠ processor.variable_codelist
      ∨ dsd.region_codelist ≠ processor.region_codelist))
    (hrnc : regions_not_checked_E iamdf processor = Except.error e) :
    check_region_aggregates iamdf dsd processor extCheck rtol_difference
      = Except.error e := by
  unfold check_region_aggregates
  rw [if_neg hmm, hrnc]

theorem check_region_aggregates_ext_ok (iamdf : List Row)
    (dsd : DataStructureDefinition) (processor : RegionProcessor)
    (extCheck : Except PyErr (List Row × Option RegionFailTable))
    (rtol_difference : Option Rat) (rnc : List (PyStr × List PyStr))
    (pd : List Row) (fc : Option RegionFailTable)
    (hmm : ¬(dsd.variable_codelist ≠ processor.variable_codelist
      ∨ dsd.region_codelist ≠ processor.region_codelist))
    (hrnc : regions_not_checked_E iamdf processor = Except.ok rnc)
    (hext : extCheck = Except.ok (pd, fc)) :
    check_region_aggregates iamdf dsd processor extCheck rtol_difference
      = Except.ok (mkRegionResult iamdf dsd processor rtol_difference rnc pd fc) := by
  unfold check_region_aggregates
  rw [if_neg hmm, hrnc, hext]

theorem check_region_aggregates_no_objects (iamdf : List Row)
    (dsd : DataStructureDefinition) (processor : RegionProcessor)
    (extCheck : Except PyErr (List Row × Option RegionFailTable))
    (rtol_difference : Option Rat) (rnc : List (PyStr × List PyStr))
    (hmm : ¬(dsd.variable_codelist ≠ processor.variable_codelist
      ∨ dsd.region_codelist ≠ processor.region_codelist))
    (hrnc : regions_not_checked_E iamdf processor = Except.ok rnc)
    (hext : extCheck = Except.error (PyErr.valueError noObjectsMsg)) :
    check_region_aggregates iamdf dsd processor extCheck rtol_difference
      = Except.ok (mkRegionResult iamdf dsd processor rtol_difference rnc
          (iamdf.filter (fun r => r.model ∉ dfModels iamdf)) none) := by
  unfold check_region_aggregates
  rw [if_neg hmm, hrnc, hext]
  simp

theorem check_region_aggregates_ext_error (iamdf : List Row)
    (dsd : DataStructureDefinition) (processor : RegionProcessor)
    (extCheck : Except PyErr (List Row × Option RegionFailTable))
    (rtol_difference : Option Rat) (rnc : List (PyStr × List PyStr)) (e : PyErr)
    (hmm : ¬(dsd.variable_codelist ≠ processor.variable_codelist
      ∨ dsd.region_codelist ≠ processor.region_codelist))
    (hrnc : regions_not_checked_E iamdf processor = Except.ok rnc)
    (hext : extCheck = Except.error e)
    (he : ∀ msg, e = PyErr.valueError msg → msg ≠ noObjectsMsg) :
    check_region_aggregates iamdf dsd processor extCheck rtol_difference
      = Except.error e := by
  unfold check_region_aggregates
  rw [if_neg hmm, hrnc, hext]
  cases e with
  | keyError k => rfl
  | typeError m2 => rfl
  | valueError msg =>
    show (if msg = noObjectsMsg then
        Except.ok (mkRegionResult iamdf dsd processor rtol_difference rnc
          (iamdf.filter (fun r => r.model ∉ dfModels iamdf)) none)
      else Except.error (PyErr.valueError msg))
      = Except.error (PyErr.valueError msg)
    rw [if_neg (he msg rfl)]

/-- C5: `check_region_aggregates` raises the codelist-mismatch
`ValueError` (with its fixed message, before any classification — the
result does not depend on the dataset or the external call in that case)
exactly when the variable codelist or the region codelist referenced by
the definition store differs from the one referenced by the region mapping
store; when both are identical no such error is raised, whatever else
happens.  The hypothesis excludes the degenerate possibility that the
external collaborator itself raises a ValueError carrying this exact
message. -/
theorem check_region_aggregates_codelist_guard (iamdf : List Row)
    (dsd : DataStructureDefinition) (processor : RegionProcessor)
    (extCheck : Except PyErr (List Row × Option RegionFailTable))
    (rtol_difference : Option Rat)
    (hext : extCheck ≠ Except.error (PyErr.valueError codelistMismatchMsg)) :
    check_region_aggregates iamdf dsd processor extCheck rtol_difference
        = Except.error (PyErr.valueError codelistMismatchMsg)
      ↔ (dsd.variable_codelist ≠ processor.variable_codelist
          ∨ dsd.region_codelist ≠ processor.region_codelist) := by
  by_cases hmm : dsd.variable_codelist ≠ processor.variable_codelist
      ∨ dsd.region_codelist ≠ processor.region_codelist
  · exact ⟨fun _ => hmm, fun _ =>
      check_region_aggregates_mismatch iamdf dsd processor extCheck rtol_difference hmm⟩
  · simp only [hmm, iff_false]
    intro hres
    cases hrnc : regions_not_checked_E iamdf processor with
    | error e =>
      rw [check_region_aggregates_rnc_error iamdf dsd processor extCheck rtol_difference
        e hmm hrnc] at hres
      rcases regions_not_checked_E_error_is_keyError iamdf processor e hrnc with ⟨m, rfl⟩
      simp at hres
    | ok rnc =>
      cases hext2 : extCheck with
      | ok pr =>
        obtain ⟨pd, fc⟩ := pr
        rw [check_region_aggregates_ext_ok iamdf dsd processor extCheck rtol_difference
          rnc pd fc hmm hrnc hext2] at hres
        cases hres
      | error e =>
        cases e with
        | valueError msg =>
          by_cases hmsg : msg = noObjectsMsg
          · subst hmsg
            rw [check_region_aggregates_no_objects iamdf dsd processor extCheck
              rtol_difference rnc hmm hrnc hext2] at hres
            cases hres
          · rw [check_region_aggregates_ext_error iamdf dsd processor extCheck
              rtol_difference rnc (PyErr.valueError msg) hmm hrnc hext2
              (by intro m2 hm2; cases hm2; exact hmsg)] at hres
            simp only [Except.error.injEq, PyErr.valueError.injEq] at hres
            subst hres
            exact hext hext2
        | keyError k =>
          rw [check_region_aggregates_ext_error iamdf dsd processor extCheck
            rtol_difference rnc (PyErr.keyError k) hmm hrnc hext2
            (by intro m2 hm2; cases hm2)] at hres
          cases hres
        | typeError m2 =>
          rw [check_region_aggregates_ext_error iamdf dsd processor extCheck
            rtol_difference rnc (PyErr.typeError m2) hmm hrnc hext2
            (by intro m3 hm3; cases hm3)] at hres
          cases hres

/-- Witness for C5 at a concrete input: with differing region codelists the
mismatch error is raised. -/
theorem check_region_aggregates_codelist_guard_witness :
    check_region_aggregates []
        { variable_codelist := [], region_codelist := [("R1").data] }
        { mappings := [], variable_codelist := [], region_codelist := [] }
        (Except.ok ([], none)) none
      = Except.error (PyErr.valueError codelistMismatchMsg) :=
  (check_region_aggregates_codelist_guard []
      { variable_codelist := [], region_codelist := [("R1").data] }
      { mappings := [], variable_codelist := [], region_codelist := [] }
      (Except.ok ([], none)) none (fun h => nomatch h)).mpr
    (Or.inr (by decide))

/-- Modelled from the spec: a dataset row requires region aggregation or
relabeling exactly when its model is known to the region-mapping store and
its region is one of that model's native regions — the processed dataset
relabels the native-region rows of known models into common-region names
per the mapping, and common-region aggregates are computed from those same
native rows.  This predicate stands in for the internals of the external
`RegionProcessor.check_region_aggregation` collaborator, which raises
`ValueError('No objects to concatenate')` precisely in the degenerate case
where no row needs processing. -/
def rowRequiresRegionProcessing (processor : RegionProcessor) (r : Row) : Bool :=
  match alookup processor.mappings r.model with
  | some mp => r.region ∈ mp.model_native_region_names
  | none => false

theorem alookup_map_filter_self {γ : Type} (l : List PyStr) (g : PyStr → List γ)
    (m : PyStr) (hm : m ∈ l) (hne : 0 < (g m).length) :
    alookup ((l.map (fun x => (x, g x))).filter (fun p => p.2.length > 0)) m
      = some (g m) := by
  induction l with
  | nil => simp at hm
  | cons x xs ih =>
    by_cases hx : x = m
    · subst hx
      rw [List.map_cons, List.filter_cons_of_pos (by simpa using hne), alookup_cons]
      simp
    · have hm' : m ∈ xs := by
        rcases List.mem_cons.mp hm with h | h
        · exact absurd h.symm hx
        · exact h
      rw [List.map_cons]
      by_cases hgx : 0 < (g x).length
      · rw [List.filter_cons_of_pos (by simpa using hgx), alookup_cons, if_neg hx]
        exact ih hm'
      · rw [List.filter_cons_of_neg (by simpa using hgx)]
        exact ih hm'

theorem regions_not_checked_E_ok_of_degenerate (iamdf : List Row)
    (processor : RegionProcessor)
    (hnorows : ∀ r ∈ iamdf, rowRequiresRegionProcessing processor r = false) :
    ∃ out, regions_not_checked_E iamdf processor = Except.ok out := by
  unfold regions_not_checked_E
  apply exceptMapList_ok_of_forall
  intro m hm
  have hm1 : m ∈ dfModels iamdf := (List.mem_filter.mp hm).1
  have hall : ∀ reg ∈ dfRegions (iamdf.filter (fun r => r.model = m)),
      reg ∉ nativeRegionNames processor m := by
    intro reg hreg
    rcases List.mem_map.mp (List.mem_dedup.mp hreg) with ⟨row, hrow, hrr⟩
    have hrowf := List.mem_filter.mp hrow
    have hrm : row.model = m := by simpa using hrowf.2
    have hfalse := hnorows row hrowf.1
    unfold rowRequiresRegionProcessing at hfalse
    rw [hrm] at hfalse
    rw [nativeRegionNames]
    cases hmp : alookup processor.mappings m with
    | none => simp
    | some mp =>
      rw [hmp] at hfalse
      subst hrr
      simpa using hfalse
  have hfe : (dfRegions (iamdf.filter (fun r => r.model = m))).filter
      (fun reg => reg ∉ nativeRegionNames processor m)
      = dfRegions (iamdf.filter (fun r => r.model = m)) := by
    apply List.filter_eq_self.mpr
    intro a ha
    simpa using hall a ha
  have hslice_ne : dfRegions (iamdf.filter (fun r => r.model = m)) ≠ [] := by
    rcases List.mem_map.mp (List.mem_dedup.mp hm1) with ⟨row, hrow, hrm⟩
    have hrowmem : row ∈ iamdf.filter (fun r => r.model = m) :=
      List.mem_filter.mpr ⟨hrow, by simpa using hrm⟩
    have : row.region ∈ (iamdf.filter (fun r => r.model = m)).map Row.region :=
      List.mem_map_of_mem Row.region hrowmem
    intro hnil
    rw [dfRegions, List.dedup_eq_nil] at hnil
    rw [hnil] at this
    simp at this
  have hlookup : alookup (unknown_regions iamdf processor) m
      = some (dfRegions (iamdf.filter (fun r => r.model = m))) := by
    unfold unknown_regions unknown_regions_all
    have h2 := alookup_map_filter_self (models_to_check iamdf processor)
      (fun m => (dfRegions (iamdf.filter (fun r => r.model = m))).filter
        (fun reg => reg ∉ nativeRegionNames processor m)) m hm
      (by simpa only [hfe] using List.length_pos.mpr hslice_ne)
    simpa only [hfe] using h2
  exact ⟨_, by rw [hlookup]⟩

/-- C2: whenever no dataset row requires region aggregation or relabeling
(so the external region-processing call raises the pyam data-absence
`ValueError('No objects to concatenate')`), `check_region_aggregates`
does not raise: it returns a result whose `processed_data` is an empty
dataset and whose `failed_checks` is `None`.  The codelists of `dsd` and
`processor` are assumed to match (otherwise the C5 configuration error
fires regardless of the dataset). -/
theorem check_region_aggregates_degenerate (iamdf : List Row)
    (dsd : DataStructureDefinition) (processor : RegionProcessor)
    (extCheck : Except PyErr (List Row × Option RegionFailTable))
    (rtol_difference : Option Rat)
    (hvc : dsd.variable_codelist = processor.variable_codelist)
    (hrc : dsd.region_codelist = processor.region_codelist)
    (hnorows : ∀ r ∈ iamdf, rowRequiresRegionProcessing processor r = false)
    (hext : extCheck = Except.error (PyErr.valueError noObjectsMsg)) :
    ∃ res, check_region_aggregates iamdf dsd processor extCheck rtol_difference
        = Except.ok res
      ∧ res.processed_data = [] ∧ res.failed_checks = none := by
  have hmm : ¬(dsd.variable_codelist ≠ processor.variable_codelist
      ∨ dsd.region_codelist ≠ processor.region_codelist) := by
    simp [hvc, hrc]
  rcases regions_not_checked_E_ok_of_degenerate iamdf processor hnorows with ⟨rnc, hrnc⟩
  refine ⟨_, check_region_aggregates_no_objects iamdf dsd processor extCheck
    rtol_difference rnc hmm hrnc hext, ?_, rfl⟩
  show iamdf.filter (fun r => r.model ∉ dfModels iamdf) = []
  apply List.filter_eq_nil_iff.mpr
  intro r hr
  have : r.model ∈ dfModels iamdf := List.mem_dedup.mpr (List.mem_map_of_mem Row.model hr)
  simpa using this

/-- Witness for C2 at a concrete input: one row with a known model but an
unknown region; nothing requires aggregation or relabeling, the external
call raises the data-absence ValueError, and the result degrades to an
empty dataset and a null failure table. -/
theorem check_region_aggregates_degenerate_witness :
    ∃ res, check_region_aggregates
        [{ model := ("M").data, region := ("X").data, varname := ("V").data }]
        { variable_codelist := [], region_codelist := [] }
        { mappings := [(("M").data,
            { model_native_region_names := [("R1").data], common_regions := none })],
          variable_codelist := [], region_codelist := [] }
        (Except.error (PyErr.valueError noObjectsMsg)) none
        = Except.ok res
      ∧ res.processed_data = [] ∧ res.failed_checks = none :=
  check_region_aggregates_degenerate
    [{ model := ("M").data, region := ("X").data, varname := ("V").data }]
    { variable_codelist := [], region_codelist := [] }
    { mappings := [(("M").data,
        { model_native_region_names := [("R1").data], common_regions := none })],
      variable_codelist := [], region_codelist := [] }
    (Except.error (PyErr.valueError noObjectsMsg)) none rfl rfl (by decide) rfl

/-- Failing input for C1: model "M" has native regions R1, R2 and the
common region World with constituents R1, R2; its dataset slice contains
R1, R2 and World, and all codelists agree between `dsd` and the
processor. -/
def c1_iamdf : List Row :=
  [{ model := ("M").data, region := ("R1").data, varname := ("V").data },
   { model := ("M").data, region := ("R2").data, varname := ("V").data },
   { model := ("M").data, region := ("World").data, varname := ("V").data }]

/-- See `c1_iamdf`. -/
def c1_dsd : DataStructureDefinition :=
  { variable_codelist := [(("V").data,
      { check_aggregate := false, components := none, skip_region_aggregation := false })]
    region_codelist := [("R1").data, ("R2").data, ("World").data] }

/-- See `c1_iamdf`. -/
def c1_world : CommonRegion :=
  { name := ("World").data, constituent_regions := [("R1").data, ("R2").data] }

/-- See `c1_iamdf`. -/
def c1_processor : RegionProcessor :=
  { mappings := [(("M").data,
      { model_native_region_names := [("R1").data, ("R2").data]
        common_regions := some [c1_world] })]
    variable_codelist := c1_dsd.variable_codelist
    region_codelist := c1_dsd.region_codelist }

/-- C1 (evaluation at the failing input): the classification produced by
`check_region_aggregates` is not the claimed partition.  "World" is a
declared common region of model "M" (with declared constituents), yet it
is reported in `unkonwn_regions` (the source tests only native region
names, source lines 524-530) while simultaneously being reported in
`common_aggregated_regions` — two classes at once; and the constituents
R1, R2 of the checked common region "World" are reported in
`regions_not_checked`, because `list(itertools.chain(values))` at source
line 553 keeps the constituent lists unexpanded, so no constituent name
ever matches — contradicting both the claim and the source's own
docstring for that field.  The call returns normally (`toOption` is
`some`), and the three classification fields take exactly the values
shown. -/
theorem check_region_aggregates_classification_eval :
    ((check_region_aggregates c1_iamdf c1_dsd c1_processor
        (Except.ok ([], none)) none).toOption.map
          (fun res => res.unkonwn_regions))
        = some [(("M").data, [("World").data])]
      ∧ ((check_region_aggregates c1_iamdf c1_dsd c1_processor
        (Except.ok ([], none)) none).toOption.map
          (fun res => res.common_aggregated_regions))
        = some [(("M").data, [("World").data])]
      ∧ ((check_region_aggregates c1_iamdf c1_dsd c1_processor
        (Except.ok ([], none)) none).toOption.map
          (fun res => res.regions_not_checked))
        = some [(("M").data, [("R1").data, ("R2").data])] :=
  ⟨by decide, by decide, by decide⟩
